import Mathlib

/-!
# pkgmgr: the command dispatcher of `src/pkgmgr/main.go` and the core it fronts

The first part embeds `main`, `printUsage`, the package-level variable `cfg`
and `init` of `main.go`.  A run is described by the list of observable events
it produces (handler calls, writes to stdout and stderr, `os.Exit`) together
with the package-level variables of package `main`.

The second part, namespace `Core`, models the dependency resolution and
transaction engine behind `cmd.CmdInstall` (Resolver, Planner,
TransactionExecutor).  That code is not in `src/`; the model follows the
specification section by section.
-/

namespace Pkgmgr

/-- The nine functions of package `cmd` that `main` calls. -/
inductive Handler where
  | CmdInstall
  | CmdRemove
  | CmdUpdate
  | CmdSearch
  | CmdList
  | CmdInfo
  | CmdRepo
  | CmdClean
  | CmdSync
  deriving DecidableEq, Repr

/-- The observable actions of package `main`, in program order. -/
inductive Event where
  /-- A call `cmd.<h>(args)`. -/
  | call (h : Handler) (args : List String)
  /-- A write to standard output (`fmt.Print`, `fmt.Println`). -/
  | stdout (s : String)
  /-- A write to standard error (`fmt.Fprintf(os.Stderr, ...)`). -/
  | stderr (s : String)
  /-- The call `os.Exit(code)`; nothing runs after it. -/
  | exit (code : Nat)
  deriving DecidableEq, Repr

/-- The raw string `usage` of `printUsage` (main.go lines 49-74). -/
def usage : String :=
"VSS-CO Package Manager v1.0

Usage:
  pkgmgr [command] [options]

Commands:
  install <pkg>      Install package(s)
  remove  <pkg>      Remove package(s)
  update  [pkg]      Update package(s)
  search  <query>    Search packages
  list               List installed packages
  info    <pkg>      Show package information
  repo    <action>   Manage repositories
  sync               Sync package database
  clean              Clean cache
  version            Show version
  help               Show this help

Examples:
  pkgmgr install vim emacs          # Install multiple packages
  pkgmgr search web                 # Search for \"web\" packages
  pkgmgr update                     # Update all packages
  pkgmgr remove curl                # Remove curl

Use 'pkgmgr help <command>' for more info.
"

/-- The function `printUsage`: one `fmt.Print(usage)`. -/
def printUsage : List Event :=
  [Event.stdout usage]

/-- The function `main`, applied to `os.Args`.  `os.Args[2:]` is `args.drop 2`;
the `switch` compares `subcommand` with the case strings from top to bottom. -/
def main (args : List String) : List Event :=
  if h : args.length < 2 then
    printUsage ++ [Event.exit 1]
  else
    let subcommand := args[1]
    match subcommand with
    | "install" | "i" => [Event.call Handler.CmdInstall (args.drop 2)]
    | "remove" | "rm" => [Event.call Handler.CmdRemove (args.drop 2)]
    | "update" => [Event.call Handler.CmdUpdate (args.drop 2)]
    | "search" => [Event.call Handler.CmdSearch (args.drop 2)]
    | "list" => [Event.call Handler.CmdList (args.drop 2)]
    | "info" => [Event.call Handler.CmdInfo (args.drop 2)]
    | "repo" => [Event.call Handler.CmdRepo (args.drop 2)]
    | "clean" => [Event.call Handler.CmdClean (args.drop 2)]
    | "sync" => [Event.call Handler.CmdSync (args.drop 2)]
    | "version" | "-v" => [Event.stdout "VSS-CO Package Manager v1.0\n"]
    | "help" | "-h" => printUsage
    | _ => [Event.stderr ("Unknown command: " ++ subcommand ++ "\n"), Event.exit 1]

/-- The package-level variables of package `main` (main.go line 79):
`var cfg *config.Config`, a pointer that is `nil` (`none`) until assigned.
The type `config.Config` is declared outside this file and is a parameter. -/
structure Globals (Config : Type) where
  cfg : Option Config
  deriving DecidableEq, Repr

/-- What a piece of the program leaves behind: the package-level variables and
the events it produced, in order. -/
structure Outcome (Config : Type) where
  globals : Globals Config
  events : List Event
  deriving DecidableEq, Repr

/-- The function `init` (main.go lines 81-88).  `loadConfig` is the pair that
`config.LoadConfig()` returns: the `*Config` and the `error` (`none` for `nil`,
otherwise its message as `%v` prints it).  The assignment to `cfg` happens
before the error is looked at. -/
def init {Config : Type} (loadConfig : Option Config × Option String)
    (g : Globals Config) : Outcome Config :=
  let g1 : Globals Config := { g with cfg := loadConfig.1 }
  match loadConfig.2 with
  | some err =>
    { globals := g1
      events := [Event.stderr ("Failed to load config: " ++ err ++ "\n"), Event.exit 1] }
  | none => { globals := g1, events := [] }

/-- Whether a run fragment ended the process with `os.Exit`. -/
def exited (es : List Event) : Bool :=
  es.any (fun e => match e with
    | Event.exit _ => true
    | _ => false)

/-- A whole run of the executable: the package-level variables start at their
zero values, `init` runs, and `main` runs unless `init` has exited.  `main`
does not mention `cfg`, so the variables pass through it unchanged. -/
def program {Config : Type} (loadConfig : Option Config × Option String)
    (args : List String) : Outcome Config :=
  let o := init loadConfig { cfg := none }
  if exited o.events then o
  else { globals := o.globals, events := o.events ++ main args }

/-- Splits a text at every newline character. -/
def splitLines : List Char → List (List Char)
  | [] => [[]]
  | c :: cs =>
    if c = '\n' then [] :: splitLines cs
    else
      match splitLines cs with
      | [] => [[c]]
      | l :: ls => (c :: l) :: ls

/-- The first blank-separated word of a line. -/
def firstWord (l : List Char) : List Char :=
  (l.dropWhile (fun c => c = ' ')).takeWhile (fun c => c ≠ ' ')

/-- The lines that follow the line `header`, up to the next empty line. -/
def sectionLines (header : List Char) (ls : List (List Char)) : List (List Char) :=
  ((ls.dropWhile (fun l => l ≠ header)).drop 1).takeWhile (fun l => l ≠ [])

/-- The command names listed under `Commands:` in the usage text: the first
word of every line of that section. -/
def listedCommands : List String :=
  (sectionLines "Commands:".toList (splitLines usage.toList)).map
    (fun l => String.mk (firstWord l))

/-- The events of the `default:` branch of the `switch` in `main`. -/
def unknownCommand (subcommand : String) : List Event :=
  [Event.stderr ("Unknown command: " ++ subcommand ++ "\n"), Event.exit 1]

/-- The handler commands and the handler each one names. -/
def handlerTable : List (String × Handler) :=
  [("install", Handler.CmdInstall), ("i", Handler.CmdInstall),
   ("remove", Handler.CmdRemove), ("rm", Handler.CmdRemove),
   ("update", Handler.CmdUpdate), ("search", Handler.CmdSearch),
   ("list", Handler.CmdList), ("info", Handler.CmdInfo),
   ("repo", Handler.CmdRepo), ("clean", Handler.CmdClean),
   ("sync", Handler.CmdSync)]

namespace Core

/-- Modelled from the spec: §3 gives a package the identity (name, version)
and §8 writes versions as dotted numbers (`1.0`, `2.0`); the package model is
not under src/.  A version is the list of its numeric components. -/
abbrev Version := List Nat

/-- Modelled from the spec: the order `>=` on versions used by the constraints
of §8 (`A>=1.0`); the version order is not under src/.  Components are
compared from the left. -/
def versionLe : Version → Version → Bool
  | [], _ => true
  | _ :: _, [] => false
  | a :: as, b :: bs => if a < b then true else if b < a then false else versionLe as bs

/-- Modelled from the spec: the version predicate of a DependencyConstraint
(§3: exact / range / any); not under src/.  A range has optional inclusive
bounds. -/
inductive VersionPred where
  | exact (v : Version)
  | range (lo hi : Option Version)
  | any
  deriving DecidableEq, Repr

/-- Modelled from the spec: evaluation of a version predicate (§3) on a
version; not under src/. -/
def VersionPred.admits : VersionPred → Version → Bool
  | VersionPred.exact v, w => v == w
  | VersionPred.range lo hi, w =>
    (match lo with
     | none => true
     | some l => versionLe l w) &&
    (match hi with
     | none => true
     | some h => versionLe w h)
  | VersionPred.any, _ => true

/-- Modelled from the spec: §3 DependencyConstraint (package name, version
predicate, optional flag); not under src/. -/
structure DependencyConstraint where
  name : String
  pred : VersionPred
  optional : Bool
  deriving DecidableEq, Repr

/-- Modelled from the spec: the identity (name, version) of a Package (§3);
not under src/. -/
structure PackageId where
  name : String
  version : Version
  deriving DecidableEq, Repr

/-- Modelled from the spec: a file-manifest entry (path, checksum, mode) of a
Package (§3); not under src/. -/
structure FileEntry where
  path : String
  checksum : String
  mode : Nat
  deriving DecidableEq, Repr

/-- Modelled from the spec: §3 Package: identity, ordered dependency
constraints, conflicting identities, file manifest, size; not under src/. -/
structure Package where
  name : String
  version : Version
  deps : List DependencyConstraint
  conflicts : List PackageId
  manifest : List FileEntry
  size : Nat
  deriving DecidableEq, Repr

/-- Modelled from the spec: the identity (name, version) of a Package (§3);
not under src/. -/
def Package.id (p : Package) : PackageId :=
  { name := p.name, version := p.version }

/-- Modelled from the spec: §2 PackageIndex, the available packages per
repository; not under src/.  The repositories are listed in declaration order
(§4.1 Determinism). -/
abbrev PackageIndex := List (List Package)

/-- Modelled from the spec: §3 InstalledRecord (name, version, installed paths
with their checksums, install timestamp, explicitly-requested flag); not under
src/. -/
structure InstalledRecord where
  name : String
  version : Version
  files : List (String × String)
  timestamp : Nat
  explicit : Bool
  deriving DecidableEq, Repr

/-- Modelled from the spec: §2 InstalledState, the database of installed
packages; not under src/. -/
abbrev InstalledState := List InstalledRecord

/-- Modelled from the spec: the action tag of a ResolutionGraph node (§3:
install / keep / upgrade / downgrade / remove); not under src/.  An upgrade or
downgrade remembers the installed version it replaces, which the Planner needs
for the removal half of an update (§4.2). -/
inductive Action where
  | install
  | keep
  | upgrade (old : Version)
  | downgrade (old : Version)
  | remove
  deriving DecidableEq, Repr

/-- Modelled from the spec: a node of the ResolutionGraph (§3): a resolved
(name, version) pair tagged with an action; not under src/.  The node also
carries the explicitly-requested flag that the InstalledRecord of §3 will get. -/
structure Node where
  name : String
  version : Version
  action : Action
  explicit : Bool
  deriving DecidableEq, Repr

/-- Modelled from the spec: §3 ResolutionGraph; not under src/.  Nodes sit in
a flat array and the depends-on edges of node `i` are the index list
`edges[i]` (§9). -/
structure ResolutionGraph where
  nodes : List Node
  edges : List (List Nat)
  deriving DecidableEq, Repr

/-- Modelled from the spec: a requested operation (§4.1: Install with an
optional version constraint, Remove with the force-cascade option, UpdateOne,
UpdateAll); not under src/. -/
inductive Request where
  | install (name : String) (constraint : Option VersionPred)
  | remove (name : String) (force : Bool)
  | updateOne (name : String)
  | updateAll
  deriving DecidableEq, Repr

/-- Modelled from the spec: the errors of the Resolver (§7: UnsatisfiableError
with its constraint chain, ConflictError, CyclicDependencyError with the
cycle; §8: a Remove that is rejected because of dependents); not under src/. 
`searchLimit` reports an exhausted search bound. -/
inductive ResolveError where
  | unsatisfiable (chain : List PackageId) (constraint : DependencyConstraint)
      (available : List Version)
  | conflict (a b : PackageId)
  | cyclic (cycle : List String)
  | removalRejected (name : String) (dependents : List String)
  | searchLimit
  deriving DecidableEq, Repr

/-- Modelled from the spec: a constraint waiting on the Resolver's work-stack
together with the chain of packages that imposed it (§4.1, §9); not under
src/. -/
structure Demand where
  chain : List PackageId
  constraint : DependencyConstraint
  deriving DecidableEq, Repr

/-- Modelled from the spec: the successful result of Resolve (§4.1): the
ResolutionGraph and the orphans proposed for removal, which are surfaced and
never applied; not under src/. -/
structure Resolution where
  graph : ResolutionGraph
  orphans : List String
  deriving DecidableEq, Repr

/-- Modelled from the spec: the preference for the highest version (§4.1
Determinism); not under src/.  Inserts a package into a list sorted by
descending version, after the entries of equal version, so that the earlier
repository wins a tie. -/
def insertByVersion (p : Package) : List Package → List Package
  | [] => [p]
  | q :: qs =>
    if versionLe p.version q.version then q :: insertByVersion p qs else p :: q :: qs

/-- Modelled from the spec: the packages of the PackageIndex with a given
name, highest version first, ties in repository declaration order (§4.1); not
under src/. -/
def available (index : PackageIndex) (name : String) : List Package :=
  (index.flatten.filter (fun p => p.name == name)).foldl (fun acc p => insertByVersion p acc) []

/-- Modelled from the spec: the constraints already imposed on a name by the
installed and selected packages that depend on it (§4.1); not under src/. -/
def activeConstraints (sel : List Package) (name : String) : List DependencyConstraint :=
  sel.flatMap (fun p => p.deps.filter (fun c => c.name == name && !c.optional))

/-- Modelled from the spec: the candidate set of a constraint (§3, §4.1): the
available versions that satisfy it and all active constraints, highest first;
not under src/. -/
def candidates (index : PackageIndex) (sel : List Package) (c : DependencyConstraint) :
    List Package :=
  (available index c.name).filter (fun p =>
    c.pred.admits p.version && (activeConstraints sel c.name).all (fun a => a.pred.admits p.version))

/-- Modelled from the spec: the constraints a newly selected package adds to
the work-stack, each with its chain (§4.1); not under src/. -/
def demandsOf (chain : List PackageId) (p : Package) : List Demand :=
  p.deps.map (fun c => { chain := chain ++ [p.id], constraint := c })

/-- Modelled from the spec: the conflict check of §4.1: a selected package
that the candidate declares as a conflict, or that declares the candidate; not
under src/. -/
def conflictWith (k : Package) (sel : List Package) : Option Package :=
  sel.find? (fun q => k.conflicts.contains q.id || q.conflicts.contains k.id)

/-- Modelled from the spec: the backtracking step of §4.1: try the candidates
in order and take the first that succeeds; when all fail, the failure of the
highest candidate is reported; not under src/. -/
def firstSuccess {ε α β : Type} (f : α → Except ε β) : List α → Option (Except ε β)
  | [] => none
  | a :: as =>
    match f a with
    | Except.ok b => some (Except.ok b)
    | Except.error e =>
      match firstSuccess f as with
      | some (Except.ok b) => some (Except.ok b)
      | _ => some (Except.error e)

/-- Modelled from the spec: the constraint solver of the Resolver (§4.1): one
candidate version per package name, highest satisfying version first,
backtracking to the next-highest candidate when a later constraint cannot be
met, UnsatisfiableError with the constraint chain when no candidate is left;
not under src/.  `blocked` are the names marked for removal; an optional
constraint that cannot be met is dropped. -/
def solve (index : PackageIndex) (blocked : List String) :
    Nat → List Demand → List Package → Except ResolveError (List Package)
  | 0, _, _ => Except.error ResolveError.searchLimit
  | _ + 1, [], sel => Except.ok sel
  | fuel + 1, d :: todo, sel =>
    match sel.find? (fun p => p.name == d.constraint.name) with
    | some p =>
      if d.constraint.optional || d.constraint.pred.admits p.version then
        solve index blocked fuel todo sel
      else
        Except.error (ResolveError.unsatisfiable d.chain d.constraint [p.version])
    | none =>
      let cands :=
        if blocked.contains d.constraint.name then [] else candidates index sel d.constraint
      let attempt : Package → Except ResolveError (List Package) := fun k =>
        match conflictWith k sel with
        | some q => Except.error (ResolveError.conflict k.id q.id)
        | none => solve index blocked fuel (todo ++ demandsOf d.chain k) (sel ++ [k])
      match firstSuccess attempt cands with
      | some (Except.ok r) => Except.ok r
      | some (Except.error e) =>
        if d.constraint.optional then solve index blocked fuel todo sel else Except.error e
      | none =>
        if d.constraint.optional then solve index blocked fuel todo sel
        else Except.error (ResolveError.unsatisfiable d.chain d.constraint
          ((available index d.constraint.name).map (fun p => p.version)))

/-- Modelled from the spec: the Package of an installed record, looked up in
the PackageIndex by identity (§2); not under src/. -/
def packageOf (index : PackageIndex) (r : InstalledRecord) : Package :=
  match index.flatten.find? (fun p => p.name == r.name && p.version == r.version) with
  | some p => p
  | none =>
    { name := r.name, version := r.version, deps := [], conflicts := [],
      manifest := r.files.map (fun f => { path := f.1, checksum := f.2, mode := 0 }),
      size := 0 }

/-- Modelled from the spec: whether an installed package depends on a name
(§4.1 Remove request); not under src/. -/
def dependsOn (index : PackageIndex) (r : InstalledRecord) (name : String) : Bool :=
  (packageOf index r).deps.any (fun c => c.name == name && !c.optional)

/-- Modelled from the spec: the force-cascading remove of §4.1: dependents are
transitively added to the removal set; not under src/. -/
def cascade (installed : InstalledState) (index : PackageIndex) :
    Nat → List String → List String
  | 0, set => set
  | fuel + 1, set =>
    let more := (installed.filter (fun r =>
      !set.contains r.name && set.any (fun n => dependsOn index r n))).map (fun r => r.name)
    if more.isEmpty then set else cascade installed index fuel (set ++ more)

/-- Modelled from the spec: membership of a name in InstalledState (§2); not
under src/. -/
def isInstalled (installed : InstalledState) (name : String) : Bool :=
  installed.any (fun r => r.name == name)

/-- Modelled from the spec: the removal set of §4.1, built from the Remove
requests; not under src/. -/
def removalSet (installed : InstalledState) (index : PackageIndex)
    (requests : List Request) : List String :=
  requests.foldl (fun set q =>
    match q with
    | Request.remove name force =>
      if !isInstalled installed name || set.contains name then set
      else if force then cascade installed index installed.length (set ++ [name])
      else set ++ [name]
    | _ => set) []

/-- Modelled from the spec: the rule of §4.1 that a package is marked for
removal only if no other non-removed package depends on it; returns the first
violated Remove request and the dependents; not under src/. -/
def rejectedRemoval (installed : InstalledState) (index : PackageIndex)
    (requests : List Request) (removed : List String) : Option (String × List String) :=
  requests.findSome? (fun q =>
    match q with
    | Request.remove name _ =>
      let ds := (installed.filter (fun r =>
        !removed.contains r.name && dependsOn index r name)).map (fun r => r.name)
      if isInstalled installed name && !ds.isEmpty then some (name, ds) else none
    | _ => none)

/-- Modelled from the spec: the names an Install or Update request re-selects
(§4.1: for each Install/Update request select the highest version); the other
installed packages stay as the baseline; not under src/. -/
def freedNames (installed : InstalledState) (requests : List Request) : List String :=
  requests.flatMap (fun q =>
    match q with
    | Request.install name _ => [name]
    | Request.updateOne name => [name]
    | Request.updateAll => installed.map (fun r => r.name)
    | Request.remove _ _ => [])

/-- Modelled from the spec: the constraint a request puts on a name (§4.1);
not under src/. -/
def rootDemand (name : String) (pred : VersionPred) : Demand :=
  { chain := [], constraint := { name := name, pred := pred, optional := false } }

/-- Modelled from the spec: the constraints the requests start the resolution
with (§4.1); not under src/. -/
def rootDemands (installed : InstalledState) (removed : List String)
    (requests : List Request) : List Demand :=
  requests.flatMap (fun q =>
    match q with
    | Request.install name c => [rootDemand name (c.getD VersionPred.any)]
    | Request.updateOne name =>
      if isInstalled installed name then [rootDemand name VersionPred.any] else []
    | Request.updateAll =>
      (installed.filter (fun r => !removed.contains r.name)).map
        (fun r => rootDemand r.name VersionPred.any)
    | Request.remove _ _ => [])

/-- Modelled from the spec: whether a name is named by an Install request,
i.e. explicitly requested (§3 InstalledRecord); not under src/. -/
def isRequested (requests : List Request) (name : String) : Bool :=
  requests.any (fun q =>
    match q with
    | Request.install n _ => n == name
    | _ => false)

/-- Modelled from the spec: the action tag of a selected package against
InstalledState (§3 ResolutionGraph); not under src/. -/
def actionOf (installed : InstalledState) (p : Package) : Action :=
  match installed.find? (fun r => r.name == p.name) with
  | none => Action.install
  | some r =>
    if r.version == p.version then Action.keep
    else if versionLe r.version p.version then Action.upgrade r.version
    else Action.downgrade r.version

/-- Modelled from the spec: the order on package names used for the name
tie-break (§4.2); not under src/.  Lexicographic by code point. -/
def charsLt : List Char → List Char → Bool
  | _, [] => false
  | [], _ :: _ => true
  | a :: as, b :: bs =>
    if a.toNat < b.toNat then true else if b.toNat < a.toNat then false else charsLt as bs

/-- Modelled from the spec: the order on package names used for the name
tie-break (§4.2); not under src/. -/
def nameLt (a b : String) : Bool :=
  charsLt a.toList b.toList

/-- Modelled from the spec: the deterministic node order of the graph (§4.1
Determinism): insertion into a list sorted by name; not under src/. -/
def insertByName (n : Node × Package) : List (Node × Package) → List (Node × Package)
  | [] => [n]
  | m :: ms => if nameLt m.1.name n.1.name then m :: insertByName n ms else n :: m :: ms

/-- Modelled from the spec: the nodes of the ResolutionGraph (§3): every
selected package with its action, and every removed installed package; not
under src/. -/
def targetNodes (installed : InstalledState) (index : PackageIndex) (requests : List Request)
    (removed : List String) (sel : List Package) : List (Node × Package) :=
  let kept : List (Node × Package) := sel.map (fun p =>
    ({ name := p.name, version := p.version, action := actionOf installed p,
       explicit := isRequested requests p.name ||
         installed.any (fun r => r.name == p.name && r.explicit) }, p))
  let gone : List (Node × Package) :=
    (installed.filter (fun r => removed.contains r.name)).map (fun r =>
      ({ name := r.name, version := r.version, action := Action.remove,
         explicit := r.explicit }, packageOf index r))
  (kept ++ gone).foldl (fun acc n => insertByName n acc) []

/-- Modelled from the spec: the depends-on edges of a node (§3): each
dependency points to the non-removed node of that name that satisfies it; a
removed node points to what it depended on (§4.2 removal order); not under
src/. -/
def edgesOf (nodes : List (Node × Package)) (n : Node × Package) : List Nat :=
  n.2.deps.filterMap (fun c =>
    nodes.findIdx? (fun m =>
      m.1.name == c.name &&
        (n.1.action == Action.remove ||
          (m.1.action != Action.remove && c.pred.admits m.1.version))))

/-- Modelled from the spec: assembling the ResolutionGraph from its nodes (§3,
§9); not under src/. -/
def buildGraph (nodes : List (Node × Package)) : ResolutionGraph :=
  { nodes := nodes.map (fun n => n.1), edges := nodes.map (edgesOf nodes) }

/-- Modelled from the spec: the cycle detection of §4.1 and §9: a depth-first
walk with the in-progress path; returns the cycle it closes; not under src/. -/
def cycleFrom (g : ResolutionGraph) : Nat → List Nat → Nat → Option (List Nat)
  | 0, _, _ => none
  | fuel + 1, path, i =>
    if path.contains i then some (i :: (path.takeWhile (fun j => j != i)).reverse)
    else (g.edges.getD i []).findSome? (fun j => cycleFrom g fuel (i :: path) j)

/-- Modelled from the spec: the cycle detection of §4.1: the names on a
dependency cycle of the graph, if there is one; not under src/. -/
def findCycle (g : ResolutionGraph) : Option (List String) :=
  ((List.range g.nodes.length).findSome? (fun i => cycleFrom g (g.nodes.length + 1) [] i)).map
    (fun cyc => cyc.filterMap (fun i => (g.nodes.get? i).map (fun n => n.name)))

/-- Modelled from the spec: the orphan handling of §4.1 on UpdateAll:
installed packages marked non-explicit on which no non-removed node depends;
not under src/. -/
def orphansOf (requests : List Request) (g : ResolutionGraph) : List String :=
  if requests.contains Request.updateAll then
    ((List.range g.nodes.length).filter (fun i =>
      match g.nodes.get? i with
      | none => false
      | some n =>
        !n.explicit && n.action != Action.remove && n.action != Action.install &&
          (List.range g.nodes.length).all (fun j =>
            match g.nodes.get? j with
            | none => true
            | some m => m.action == Action.remove || !(g.edges.getD j []).contains i))).filterMap
      (fun i => (g.nodes.get? i).map (fun n => n.name))
  else []

/-- Modelled from the spec: the bound on the depth of the Resolver's
work-stack (§9): every initial constraint and every dependency constraint of
the index is handled at most once along one branch; not under src/. -/
def searchFuel (index : PackageIndex) (todo : List Demand) : Nat :=
  todo.length + (index.flatten.map (fun p => p.deps.length)).sum + 1

/-- Modelled from the spec: the work that may still reach the Resolver's
work-stack (§9): the dependency constraints of the index packages whose name
has no candidate yet; not under src/. -/
def pendingWeight (index : PackageIndex) (sel : List Package) : Nat :=
  ((index.flatten.filter (fun p => !sel.any (fun q => q.name == p.name))).map
    (fun p => p.deps.length)).sum

/-- Modelled from the spec: the contract `Resolve(installed, index, requests)`
of §4.1; the Resolver is not under src/. -/
def Resolve (installed : InstalledState) (index : PackageIndex) (requests : List Request) :
    Except ResolveError Resolution :=
  let removed := removalSet installed index requests
  match rejectedRemoval installed index requests removed with
  | some (name, ds) => Except.error (ResolveError.removalRejected name ds)
  | none =>
    let freed := freedNames installed requests
    let baseline := (installed.filter (fun r =>
      !removed.contains r.name && !freed.contains r.name)).map (packageOf index)
    let todo := rootDemands installed removed requests ++ baseline.flatMap (demandsOf [])
    match solve index removed (searchFuel index todo) todo baseline with
    | Except.error e => Except.error e
    | Except.ok sel =>
      let g := buildGraph (targetNodes installed index requests removed sel)
      match findCycle g with
      | some cyc => Except.error (ResolveError.cyclic cyc)
      | none => Except.ok { graph := g, orphans := orphansOf requests g }

/-- Modelled from the spec: the step kinds of §4.2 (Fetch, Unpack, LinkFiles,
RecordInstall, RemoveFiles, RecordRemoval); not under src/. -/
inductive StepKind where
  | fetch
  | unpack
  | linkFiles
  | recordInstall
  | removeFiles
  | recordRemoval
  deriving DecidableEq, Repr

/-- Modelled from the spec: a Step of the plan (§4.2): a step kind applied to
a package; not under src/. -/
structure Step where
  kind : StepKind
  pkg : PackageId
  deriving DecidableEq, Repr

/-- Modelled from the spec: the name of the node at an index of the graph
(§9); not under src/. -/
def nodeName (g : ResolutionGraph) (i : Nat) : String :=
  ((g.nodes.get? i).map (fun n => n.name)).getD ""

/-- Modelled from the spec: the tie-break by package name of §4.2: the index
with the smallest node name; not under src/. -/
def minByName (g : ResolutionGraph) : List Nat → Option Nat
  | [] => none
  | i :: is =>
    match minByName g is with
    | none => some i
    | some j => if nameLt (nodeName g j) (nodeName g i) then some j else some i

/-- Modelled from the spec: the install actions of §4.2; an update is
installed like a new package; not under src/. -/
def isInstallAction : Action → Bool
  | Action.install => true
  | Action.upgrade _ => true
  | Action.downgrade _ => true
  | _ => false

/-- Modelled from the spec: the topological order of §4.2 (Kahn's algorithm)
for install actions: a node is ready when none of its dependencies is still
waiting; ties by name; not under src/. -/
def orderInstalls (g : ResolutionGraph) : Nat → List Nat → List Nat → List Nat
  | 0, _, done => done
  | fuel + 1, remaining, done =>
    match minByName g (remaining.filter (fun i =>
        (g.edges.getD i []).all (fun j => !remaining.contains j))) with
    | none => done
    | some i => orderInstalls g fuel (remaining.erase i) (done ++ [i])

/-- Modelled from the spec: the reversed order of §4.2 for removal actions: a
node is ready when no waiting node depends on it; ties by name; not under
src/. -/
def orderRemovals (g : ResolutionGraph) : Nat → List Nat → List Nat → List Nat
  | 0, _, done => done
  | fuel + 1, remaining, done =>
    match minByName g (remaining.filter (fun i =>
        remaining.all (fun j => !(g.edges.getD j []).contains i))) with
    | none => done
    | some i => orderRemovals g fuel (remaining.erase i) (done ++ [i])

/-- Modelled from the spec: the steps of one node (§4.2): an install is Fetch,
Unpack, LinkFiles, RecordInstall; a removal is RemoveFiles, RecordRemoval; an
update is the removal of the old version's files joined with the install of
the new version; not under src/. -/
def stepsOf (n : Node) : List Step :=
  let new : PackageId := { name := n.name, version := n.version }
  let installSteps (old : Option Version) : List Step :=
    [{ kind := StepKind.fetch, pkg := new }, { kind := StepKind.unpack, pkg := new }] ++
    (match old with
     | none => []
     | some v => [{ kind := StepKind.removeFiles, pkg := { name := n.name, version := v } }]) ++
    [{ kind := StepKind.linkFiles, pkg := new }, { kind := StepKind.recordInstall, pkg := new }]
  match n.action with
  | Action.install => installSteps none
  | Action.upgrade old => installSteps (some old)
  | Action.downgrade old => installSteps (some old)
  | Action.remove =>
    [{ kind := StepKind.removeFiles, pkg := new }, { kind := StepKind.recordRemoval, pkg := new }]
  | Action.keep => []

/-- Modelled from the spec: the contract `Plan(graph)` of §4.2; the Planner is
not under src/.  Removals are planned before installs. -/
def Plan (g : ResolutionGraph) : List Step :=
  let all := List.range g.nodes.length
  let actionAt (i : Nat) : Option Action := (g.nodes.get? i).map (fun n => n.action)
  let removals := orderRemovals g g.nodes.length
    (all.filter (fun i => actionAt i == some Action.remove)) []
  let installs := orderInstalls g g.nodes.length
    (all.filter (fun i => ((actionAt i).map isInstallAction).getD false)) []
  (removals ++ installs).flatMap (fun i =>
    match g.nodes.get? i with
    | some n => stepsOf n
    | none => [])

/-- Modelled from the spec: the per-step status of the TransactionJournal
(§3); not under src/. -/
inductive StepStatus where
  | pending
  | inProgress
  | committed
  | failed
  deriving DecidableEq, Repr

/-- Modelled from the spec: an entry of the TransactionJournal (§3), with what
its compensation needs: the paths the step touches, their prior contents and
the prior record (§4.3); not under src/. -/
structure JournalEntry where
  step : Step
  status : StepStatus
  touched : List String
  savedFiles : List (String × String)
  savedRecord : Option InstalledRecord
  deriving DecidableEq, Repr

/-- Modelled from the spec: §3 TransactionJournal, with the log of
compensations of §4.3; not under src/. -/
structure TransactionJournal where
  entries : List JournalEntry
  compensations : List (Step × Bool)
  deriving DecidableEq, Repr

/-- Modelled from the spec: the errors of the TransactionExecutor (§7:
FetchError, CorruptArchiveError, StepExecutionError, JournalCorruptionError);
not under src/. -/
inductive ExecError where
  | fetchError (p : PackageId)
  | corruptArchive (p : PackageId)
  | stepExecution (s : Step)
  | journalCorruption
  deriving DecidableEq, Repr

/-- Modelled from the spec: the Result of Execute (§4.3: committed, failed,
error); not under src/. -/
structure Result where
  committed : List Step
  failed : Option Step
  error : Option ExecError
  deriving DecidableEq, Repr

/-- Modelled from the spec: what the TransactionExecutor mutates (§4.3): the
filesystem as path and checksum, the private staging area of fetched and
unpacked archives (§5), and InstalledState; not under src/. -/
structure World where
  files : List (String × String)
  fetched : List PackageId
  staged : List (PackageId × List FileEntry)
  installed : InstalledState
  deriving DecidableEq, Repr

/-- Modelled from the spec: the collaborators of §6 as the executor sees them:
the archive fetch and unpack service, whether the filesystem accepts a write
at a path, and the clock for the install timestamp; not under src/. -/
structure Services where
  fetch : PackageId → Bool
  unpack : PackageId → Option (List FileEntry)
  canWrite : String → Bool
  now : Nat

/-- Modelled from the spec: what the TransactionExecutor is constructed with
(§9): the PackageIndex, the resolved graph and the collaborators; not under
src/. -/
structure Env where
  index : PackageIndex
  graph : ResolutionGraph
  services : Services

/-- Modelled from the spec: writing one file of the filesystem (§4.3
LinkFiles); not under src/. -/
def writeFile (files : List (String × String)) (path checksum : String) :
    List (String × String) :=
  (path, checksum) :: files.filter (fun f => f.1 != path)

/-- Modelled from the spec: the staged files of a package (§6 archive
service); not under src/. -/
def stagedFiles (w : World) (p : PackageId) : Option (List FileEntry) :=
  (w.staged.find? (fun s => s.1 == p)).map (fun s => s.2)

/-- Modelled from the spec: the InstalledRecord of a package identity (§3);
not under src/. -/
def recordOf (w : World) (p : PackageId) : Option InstalledRecord :=
  w.installed.find? (fun r => r.name == p.name && r.version == p.version)

/-- Modelled from the spec: the file-level diff of §4.2: of the files of an
installed record only those absent from the staged manifest of the new version
are removed; not under src/. -/
def removablePaths (w : World) (r : InstalledRecord) : List String :=
  let kept := (w.staged.filter (fun s => s.1.name == r.name)).flatMap
    (fun s => s.2.map (fun f => f.path))
  (r.files.map (fun f => f.1)).filter (fun path => !kept.contains path)

/-- Modelled from the spec: the paths a step writes or deletes (§4.3),
journaled for its compensation; not under src/. -/
def touchedPaths (w : World) (s : Step) : List String :=
  match s.kind with
  | StepKind.linkFiles => ((stagedFiles w s.pkg).getD []).map (fun f => f.path)
  | StepKind.removeFiles =>
    match recordOf w s.pkg with
    | some r => removablePaths w r
    | none => []
  | _ => []

/-- Modelled from the spec: the execution of one step (§4.3, §7): it succeeds
as a whole or fails leaving the world as it was; the InstalledRecord is
recorded only after the files are written and verified by checksum; not under
src/. -/
def applyStep (env : Env) (w : World) (s : Step) : Except ExecError World :=
  match s.kind with
  | StepKind.fetch =>
    if env.services.fetch s.pkg then Except.ok { w with fetched := w.fetched ++ [s.pkg] }
    else Except.error (ExecError.fetchError s.pkg)
  | StepKind.unpack =>
    if w.fetched.contains s.pkg then
      match env.services.unpack s.pkg with
      | none => Except.error (ExecError.corruptArchive s.pkg)
      | some fs =>
        match env.index.flatten.find? (fun p => p.id == s.pkg) with
        | none => Except.error (ExecError.stepExecution s)
        | some p =>
          if fs.map (fun f => (f.path, f.checksum)) = p.manifest.map (fun f => (f.path, f.checksum))
          then Except.ok { w with staged := w.staged ++ [(s.pkg, fs)] }
          else Except.error (ExecError.stepExecution s)
    else Except.error (ExecError.stepExecution s)
  | StepKind.linkFiles =>
    match stagedFiles w s.pkg with
    | none => Except.error (ExecError.stepExecution s)
    | some fs =>
      if fs.all (fun f => env.services.canWrite f.path) then
        Except.ok { w with files := fs.foldl (fun acc f => writeFile acc f.path f.checksum) w.files }
      else Except.error (ExecError.stepExecution s)
  | StepKind.recordInstall =>
    match stagedFiles w s.pkg with
    | none => Except.error (ExecError.stepExecution s)
    | some fs =>
      if fs.all (fun f => w.files.lookup f.path == some f.checksum) then
        let old := w.installed.find? (fun r => r.name == s.pkg.name)
        let flag := ((env.graph.nodes.find? (fun n => n.name == s.pkg.name)).map
          (fun n => n.explicit)).getD ((old.map (fun r => r.explicit)).getD false)
        Except.ok { w with installed :=
          w.installed.filter (fun r => r.name != s.pkg.name) ++
            [{ name := s.pkg.name, version := s.pkg.version,
               files := fs.map (fun f => (f.path, f.checksum)),
               timestamp := env.services.now, explicit := flag }] }
      else Except.error (ExecError.stepExecution s)
  | StepKind.removeFiles =>
    match recordOf w s.pkg with
    | none => Except.error (ExecError.stepExecution s)
    | some r =>
      let paths := removablePaths w r
      if paths.all env.services.canWrite then
        Except.ok { w with files := w.files.filter (fun f => !paths.contains f.1) }
      else Except.error (ExecError.stepExecution s)
  | StepKind.recordRemoval =>
    match recordOf w s.pkg with
    | none => Except.error (ExecError.stepExecution s)
    | some _ =>
      Except.ok { w with installed :=
        w.installed.filter (fun r => !(r.name == s.pkg.name && r.version == s.pkg.version)) }

/-- Modelled from the spec: the write-ahead entry of §4.3, appended as pending
before the step begins; not under src/. -/
def journalEntry (w : World) (s : Step) : JournalEntry :=
  let paths := touchedPaths w s
  { step := s, status := StepStatus.pending, touched := paths,
    savedFiles := w.files.filter (fun f => paths.contains f.1),
    savedRecord :=
      match s.kind with
      | StepKind.recordInstall => w.installed.find? (fun r => r.name == s.pkg.name)
      | StepKind.recordRemoval => recordOf w s.pkg
      | _ => none }

/-- Modelled from the spec: the compensation of one committed step (§4.3):
written files are deleted and prior files and records restored; it fails when
the filesystem refuses; not under src/. -/
def compensate (env : Env) (w : World) (e : JournalEntry) : Option World :=
  match e.step.kind with
  | StepKind.fetch => some { w with fetched := w.fetched.filter (fun p => p != e.step.pkg) }
  | StepKind.unpack => some { w with staged := w.staged.filter (fun s => s.1 != e.step.pkg) }
  | StepKind.recordInstall =>
    some { w with installed :=
      w.installed.filter (fun r => r.name != e.step.pkg.name) ++ e.savedRecord.toList }
  | StepKind.recordRemoval =>
    some { w with installed :=
      w.installed.filter (fun r => r.name != e.step.pkg.name) ++ e.savedRecord.toList }
  | _ =>
    if e.touched.all env.services.canWrite then
      some { w with files :=
        w.files.filter (fun f => !e.touched.contains f.1) ++ e.savedFiles }
    else none

/-- Modelled from the spec: the best-effort compensating rollback of §4.3 over
the committed entries, newest first; every compensation is logged with its
success; not under src/. -/
def rollback (env : Env) : List JournalEntry → World → List (Step × Bool) →
    World × List (Step × Bool)
  | [], w, log => (w, log)
  | e :: es, w, log =>
    match compensate env w e with
    | some w1 => rollback env es w1 (log ++ [(e.step, true)])
    | none => rollback env es w (log ++ [(e.step, false)])

/-- Modelled from the spec: the status update of the newest journal entry
(§4.3); not under src/. -/
def setLast (entries : List JournalEntry) (status : StepStatus) : List JournalEntry :=
  match entries.reverse with
  | [] => []
  | e :: es => (({ e with status := status } : JournalEntry) :: es).reverse

/-- Modelled from the spec: the committed entries of the TransactionJournal
(§3); not under src/. -/
def committedEntries (j : TransactionJournal) : List JournalEntry :=
  j.entries.filter (fun e => e.status == StepStatus.committed)

/-- Modelled from the spec: the failure path of §4.3: mark the step failed,
stop, roll back the committed steps of the transaction in reverse order, and
report the original error; not under src/. -/
def abort (env : Env) (w : World) (j : TransactionJournal) (s : Step) (err : ExecError) :
    World × TransactionJournal × Result :=
  let j1 : TransactionJournal := { j with entries := setLast j.entries StepStatus.failed }
  let undone := rollback env (committedEntries j1).reverse w j1.compensations
  (undone.1, { j1 with compensations := undone.2 },
    { committed := (committedEntries j1).map (fun e => e.step), failed := some s,
      error := some err })

/-- Modelled from the spec: the sequential execution of §4.3 and §5: for each
step append a pending entry, run it, mark it committed, or take the failure
path; not under src/. -/
def runSteps (env : Env) : List Step → World → TransactionJournal →
    World × TransactionJournal × Result
  | [], w, j =>
    (w, j, { committed := (committedEntries j).map (fun e => e.step), failed := none,
             error := none })
  | s :: rest, w, j =>
    let j1 : TransactionJournal := { j with entries := j.entries ++ [journalEntry w s] }
    let j2 : TransactionJournal := { j1 with entries := setLast j1.entries StepStatus.inProgress }
    match applyStep env w s with
    | Except.ok w1 =>
      runSteps env rest w1 { j2 with entries := setLast j2.entries StepStatus.committed }
    | Except.error err => abort env w j2 s err

/-- Modelled from the spec: the idempotent check of §4.3: whether the world
already matches the post-state of a step; not under src/. -/
def satisfied (w : World) (s : Step) : Bool :=
  match s.kind with
  | StepKind.fetch => w.fetched.contains s.pkg
  | StepKind.unpack => (stagedFiles w s.pkg).isSome
  | StepKind.linkFiles =>
    match stagedFiles w s.pkg with
    | none => false
    | some fs => fs.all (fun f => w.files.lookup f.path == some f.checksum)
  | StepKind.recordInstall => (recordOf w s.pkg).isSome
  | StepKind.removeFiles =>
    match recordOf w s.pkg with
    | none => true
    | some r => (removablePaths w r).all (fun path => (w.files.lookup path).isNone)
  | StepKind.recordRemoval => (recordOf w s.pkg).isNone

/-- Modelled from the spec: whether a journal with a failed step was
compensated completely (§7); not under src/. -/
def rolledBack (j : TransactionJournal) : Bool :=
  j.compensations.all (fun c => c.2) &&
    (committedEntries j).all (fun e => j.compensations.any (fun c => c.1 == e.step))

/-- Modelled from the spec: the contract `Execute(steps, journal)` of §4.3,
with restart (§4.3) and the fail-closed stance of §7; the TransactionExecutor
is not under src/. -/
def Execute (env : Env) (steps : List Step) (journal : TransactionJournal) (w : World) :
    World × TransactionJournal × Result :=
  let refuse : World × TransactionJournal × Result :=
    (w, journal, { committed := [], failed := none, error := some ExecError.journalCorruption })
  if journal.entries.any (fun e => e.status == StepStatus.failed) then
    if rolledBack journal then runSteps env steps w { entries := [], compensations := [] }
    else refuse
  else
    match journal.entries.find? (fun e => e.status == StepStatus.inProgress) with
    | some e =>
      let j1 : TransactionJournal :=
        { journal with entries := journal.entries.filter (fun x => x.status != StepStatus.pending) }
      abort env w j1 e.step (ExecError.stepExecution e.step)
    | none =>
      let done := committedEntries journal
      if done.map (fun e => e.step) = steps.take done.length && done.all (fun e => satisfied w e.step)
      then runSteps env (steps.drop done.length) w { journal with entries := done }
      else refuse

/-- Modelled from the spec: the package `A@1.0` of the scenario of §8, which
has no dependencies; its manifest and size are left open; the package data of
the repository is not under src/. -/
def scenarioA (manifest : List FileEntry) (size : Nat) : Package :=
  { name := "A", version := [1, 0], deps := [], conflicts := [], manifest := manifest,
    size := size }

/-- Modelled from the spec: the package `B@2.0` of the scenario of §8, which
depends on `A>=1.0`; its manifest and size are left open; the package data of
the repository is not under src/. -/
def scenarioB (manifest : List FileEntry) (size : Nat) : Package :=
  { name := "B", version := [2, 0],
    deps := [{ name := "A", pred := VersionPred.range (some [1, 0]) none, optional := false }],
    conflicts := [], manifest := manifest, size := size }

/-- Modelled from the spec: the resolved graph `{A@1.0 install, B@2.0 install}`
of the scenario of §8, with the edge from `B` to `A`; `B` is the explicitly
requested package; graphs are not under src/. -/
def scenarioGraph : ResolutionGraph :=
  { nodes := [{ name := "A", version := [1, 0], action := Action.install, explicit := false },
              { name := "B", version := [2, 0], action := Action.install, explicit := true }],
    edges := [[], [0]] }

/-- Modelled from the spec: the plan of the scenario of §8, the four install
steps of `A@1.0` followed by the four install steps of `B@2.0`; plans are not
under src/. -/
def scenarioPlan : List Step :=
  [{ kind := StepKind.fetch, pkg := { name := "A", version := [1, 0] } },
   { kind := StepKind.unpack, pkg := { name := "A", version := [1, 0] } },
   { kind := StepKind.linkFiles, pkg := { name := "A", version := [1, 0] } },
   { kind := StepKind.recordInstall, pkg := { name := "A", version := [1, 0] } },
   { kind := StepKind.fetch, pkg := { name := "B", version := [2, 0] } },
   { kind := StepKind.unpack, pkg := { name := "B", version := [2, 0] } },
   { kind := StepKind.linkFiles, pkg := { name := "B", version := [2, 0] } },
   { kind := StepKind.recordInstall, pkg := { name := "B", version := [2, 0] } }]

/-- Modelled from the spec: collaborators (§6) that never fail: every archive
is fetched, `A` unpacks to `mA` and every other package to `mB`, every path is
writable; the collaborators are not under src/. -/
def servicesOk (mA mB : List FileEntry) : Services :=
  { fetch := fun _ => true
    unpack := fun p => if p.name = "A" then some mA else some mB
    canWrite := fun _ => true
    now := 0 }

/-- Modelled from the spec: a manifest for `A` with one file, used to run the
scenario of §8 on concrete data; manifests are not under src/. -/
def demoA : List FileEntry :=
  [{ path := "/usr/bin/a", checksum := "c-a", mode := 493 }]

/-- Modelled from the spec: a manifest for `B` with two files, used to run the
scenario of §8 on concrete data; manifests are not under src/. -/
def demoB : List FileEntry :=
  [{ path := "/usr/bin/b", checksum := "c-b", mode := 493 },
   { path := "/usr/share/b/readme", checksum := "c-r", mode := 420 }]

/-- Modelled from the spec: a package with the given dependency constraints
and no conflicts or files, for the scenarios of §8; the package data of the
repository is not under src/. -/
def plainPackage (name : String) (version : Version) (deps : List DependencyConstraint) :
    Package :=
  { name := name, version := version, deps := deps, conflicts := [], manifest := [],
    size := 0 }

end Core

/-! ## Theorems -/

/-- The `Commands:` section of the usage text lists these eleven names. -/
theorem listedCommands_eq :
    listedCommands = ["install", "remove", "update", "search", "list", "info", "repo",
      "sync", "clean", "version", "help"] := by
  decide

/-- With at least two arguments, `main` is the `switch` on the second one. -/
theorem main_cons_cons (prog sub : String) (rest : List String) :
    main (prog :: sub :: rest) =
      match sub with
      | "install" | "i" => [Event.call Handler.CmdInstall rest]
      | "remove" | "rm" => [Event.call Handler.CmdRemove rest]
      | "update" => [Event.call Handler.CmdUpdate rest]
      | "search" => [Event.call Handler.CmdSearch rest]
      | "list" => [Event.call Handler.CmdList rest]
      | "info" => [Event.call Handler.CmdInfo rest]
      | "repo" => [Event.call Handler.CmdRepo rest]
      | "clean" => [Event.call Handler.CmdClean rest]
      | "sync" => [Event.call Handler.CmdSync rest]
      | "version" | "-v" => [Event.stdout "VSS-CO Package Manager v1.0\n"]
      | "help" | "-h" => printUsage
      | _ => unknownCommand sub := by
  simp [main, unknownCommand]

/-- C1: for every argument vector with at least two elements whose second
element is a handler command, `main` produces exactly one event, the call of
the handler that the command names, with `args[2:]` as its argument: no other
handler call, no output, no exit. -/
theorem main_dispatches_handler (args : List String) (c : String) (hd : Handler)
    (hlen : 2 ≤ args.length) (hc : args[1]? = some c) (hmem : (c, hd) ∈ handlerTable) :
    main args = [Event.call hd (args.drop 2)] := by
  match args, hlen, hc with
  | prog :: sub :: rest, _, hc =>
    simp at hc
    subst hc
    rw [main_cons_cons]
    simp [handlerTable] at hmem
    rcases hmem with ⟨rfl, rfl⟩ | ⟨rfl, rfl⟩ | ⟨rfl, rfl⟩ | ⟨rfl, rfl⟩ | ⟨rfl, rfl⟩ |
      ⟨rfl, rfl⟩ | ⟨rfl, rfl⟩ | ⟨rfl, rfl⟩ | ⟨rfl, rfl⟩ | ⟨rfl, rfl⟩ | ⟨rfl, rfl⟩ <;> rfl

/-- C1, at the three invocations the usage text gives as examples:
`pkgmgr install vim emacs`, `pkgmgr update` and `pkgmgr remove curl`. -/
theorem main_dispatches_handler_witness :
    main ["pkgmgr", "install", "vim", "emacs"] = [Event.call Handler.CmdInstall ["vim", "emacs"]] ∧
    main ["pkgmgr", "update"] = [Event.call Handler.CmdUpdate []] ∧
    main ["pkgmgr", "remove", "curl"] = [Event.call Handler.CmdRemove ["curl"]] :=
  ⟨main_dispatches_handler ["pkgmgr", "install", "vim", "emacs"] "install" Handler.CmdInstall
      (by decide) rfl (by decide),
   main_dispatches_handler ["pkgmgr", "update"] "update" Handler.CmdUpdate
      (by decide) rfl (by decide),
   main_dispatches_handler ["pkgmgr", "remove", "curl"] "remove" Handler.CmdRemove
      (by decide) rfl (by decide)⟩

/-- Every token that does not reach the `default:` branch is one of the fifteen
case strings of the `switch`. -/
theorem accepted_token (prog sub : String) (rest : List String)
    (h : main (prog :: sub :: rest) ≠ unknownCommand sub) :
    sub ∈ ["install", "i", "remove", "rm", "update", "search", "list", "info", "repo",
      "clean", "sync", "version", "-v", "help", "-h"] := by
  rw [main_cons_cons] at h
  split at h <;> first | exact absurd rfl h | simp

/-- C2: the usage text and the dispatcher agree on the command set.  For every
argument vector whose second element is a name listed under `Commands:` in the
usage text, `main` does not take the `Unknown command` branch and does not exit
with status 1; and every token with which `main` stays out of that branch is a
listed name or one of the short aliases `i`, `rm`, `-v`, `-h`. -/
theorem usage_agrees_with_switch :
    (∀ (args : List String) (c : String), c ∈ listedCommands → 2 ≤ args.length →
        args[1]? = some c →
        main args ≠ unknownCommand c ∧ Event.exit 1 ∉ main args) ∧
    (∀ (args : List String) (tok : String), 2 ≤ args.length → args[1]? = some tok →
        main args ≠ unknownCommand tok →
        tok ∈ listedCommands ∨ tok ∈ ["i", "rm", "-v", "-h"]) := by
  constructor
  · intro args c hmem hlen hc
    match args, hlen, hc with
    | prog :: sub :: rest, _, hc =>
      simp at hc
      subst hc
      rw [main_cons_cons]
      rw [listedCommands_eq] at hmem
      simp at hmem
      rcases hmem with rfl | rfl | rfl | rfl | rfl | rfl | rfl | rfl | rfl | rfl | rfl <;>
        simp [unknownCommand, printUsage]
  · intro args tok hlen hc hne
    match args, hlen, hc with
    | prog :: sub :: rest, _, hc =>
      simp at hc
      subst hc
      have h := accepted_token prog sub rest hne
      rw [listedCommands_eq]
      simp at h ⊢
      tauto

/-- C2, at `pkgmgr sync` (a listed name) and `pkgmgr -v` (a short alias). -/
theorem usage_agrees_with_switch_witness :
    (main ["pkgmgr", "sync"] ≠ unknownCommand "sync" ∧ Event.exit 1 ∉ main ["pkgmgr", "sync"]) ∧
    ("-v" ∈ listedCommands ∨ "-v" ∈ ["i", "rm", "-v", "-h"]) :=
  ⟨usage_agrees_with_switch.1 ["pkgmgr", "sync"] "sync" (by decide) (by decide) rfl,
   usage_agrees_with_switch.2 ["pkgmgr", "-v"] "-v" (by decide) rfl (by decide)⟩

/-- C3: `main` ignores everything after `help`.  `pkgmgr help install` prints
the usage text, exactly what plain `pkgmgr help` prints, and for every command
`c` the run `help c` produces the same events as plain `help`. -/
theorem help_ignores_command :
    main ["pkgmgr", "help", "install"] = [Event.stdout usage] ∧
    main ["pkgmgr", "help"] = [Event.stdout usage] ∧
    (∀ prog c : String, main [prog, "help", c] = main [prog, "help"]) := by
  simp [main_cons_cons, printUsage]

/-- The only handler argument `main` ever passes is `args[2:]`. -/
theorem main_call_args (args : List String) (hd : Handler) (a : List String)
    (h : Event.call hd a ∈ main args) : a = args.drop 2 := by
  match args with
  | [] => simp [main, printUsage] at h
  | [_] => simp [main, printUsage] at h
  | prog :: sub :: rest =>
    rw [main_cons_cons] at h
    split at h <;> simp_all [unknownCommand, printUsage]

/-- C4, as the claim states it, fails: a run whose `LoadConfig` succeeds ends
with the package-level variable `cfg` written, and the handler receives the
arguments only. -/
theorem init_writes_global_cfg :
    program ((some 7, none) : Option Nat × Option String) ["pkgmgr", "install", "vim"] =
      { globals := { cfg := some 7 }, events := [Event.call Handler.CmdInstall ["vim"]] } ∧
    (init ((some 7, none) : Option Nat × Option String) { cfg := none }).globals ≠
      { cfg := none } := by
  constructor
  · simp [program, init, exited, main_cons_cons]
  · simp [init]

/-- C4, amended: the program keeps one package-level configuration variable,
`cfg`.  `init` assigns it the pointer returned by `config.LoadConfig` at
start-up; when `LoadConfig` reports an error the run is one line on stderr and
exit status 1, and otherwise the run is exactly `main`, which leaves `cfg` as
`init` set it and passes every handler `args[2:]` and nothing else. -/
theorem cfg_is_package_level {Config : Type} (loadConfig : Option Config × Option String)
    (args : List String) :
    (program loadConfig args).globals.cfg = loadConfig.1 ∧
    (∀ err, loadConfig.2 = some err →
      (program loadConfig args).events =
        [Event.stderr ("Failed to load config: " ++ err ++ "\n"), Event.exit 1]) ∧
    (loadConfig.2 = none → (program loadConfig args).events = main args) ∧
    (∀ hd a, Event.call hd a ∈ (program loadConfig args).events → a = args.drop 2) := by
  obtain ⟨c, e⟩ := loadConfig
  cases e with
  | none =>
    refine ⟨rfl, ?_, ?_, ?_⟩
    · intro err h
      simp at h
    · intro _
      simp [program, init, exited]
    · intro hd a h
      simp [program, init, exited] at h
      exact main_call_args args hd a h
  | some msg =>
    refine ⟨rfl, ?_, ?_, ?_⟩
    · intro err h
      simp at h
      subst h
      simp [program, init, exited]
    · intro h
      simp at h
    · intro hd a h
      simp [program, init, exited] at h

/-- C4 amended, at a run whose `LoadConfig` fails with `no such file` and at a
run whose `LoadConfig` succeeds. -/
theorem cfg_is_package_level_witness :
    (program ((none, some "no such file") : Option Nat × Option String)
        ["pkgmgr", "list"]).events =
      [Event.stderr ("Failed to load config: " ++ "no such file" ++ "\n"), Event.exit 1] ∧
    (program ((some 7, none) : Option Nat × Option String) ["pkgmgr", "list"]).events =
      main ["pkgmgr", "list"] :=
  ⟨(cfg_is_package_level ((none, some "no such file") : Option Nat × Option String)
      ["pkgmgr", "list"]).2.1 "no such file" rfl,
   (cfg_is_package_level ((some 7, none) : Option Nat × Option String)
      ["pkgmgr", "list"]).2.2.1 rfl⟩

namespace Core

theorem lookup_filter_ne (files : List (String × String)) (path other : String)
    (h : other ≠ path) :
    (files.filter (fun f => f.1 != path)).lookup other = files.lookup other := by
  induction files with
  | nil => rfl
  | cons f fs ih =>
    obtain ⟨k, v⟩ := f
    by_cases hk : k = path
    · have h1 : (other == k) = false := by simp [hk, h]
      have h2 : (k != path) = false := by simp [hk]
      rw [List.filter_cons, List.lookup_cons]
      simp only [h1, h2]
      simpa using ih
    · have h2 : (k != path) = true := by simp [hk]
      rw [List.filter_cons]
      simp only [h2, if_true, List.lookup_cons, ih]

theorem lookup_writeFile_same (files : List (String × String)) (path checksum : String) :
    (writeFile files path checksum).lookup path = some checksum := by
  simp [writeFile, List.lookup]

theorem lookup_writeFile_ne (files : List (String × String)) (path checksum other : String)
    (h : other ≠ path) :
    (writeFile files path checksum).lookup other = files.lookup other := by
  have h1 : (other == path) = false := by simp [h]
  rw [writeFile, List.lookup_cons]
  simp only [h1]
  exact lookup_filter_ne files path other h

theorem lookup_link_of_not_mem (fs : List FileEntry) (files : List (String × String))
    (path : String) (h : path ∉ fs.map (fun f => f.path)) :
    (fs.foldl (fun acc f => writeFile acc f.path f.checksum) files).lookup path =
      files.lookup path := by
  induction fs generalizing files with
  | nil => rfl
  | cons f fs ih =>
    simp at h
    simp only [List.foldl_cons]
    rw [ih]
    · exact lookup_writeFile_ne files f.path f.checksum path h.1
    · simpa using h.2

theorem lookup_link_of_mem (fs : List FileEntry) (files : List (String × String))
    (hn : (fs.map (fun f => f.path)).Nodup) (g : FileEntry) (hg : g ∈ fs) :
    (fs.foldl (fun acc f => writeFile acc f.path f.checksum) files).lookup g.path =
      some g.checksum := by
  induction fs generalizing files with
  | nil => simp at hg
  | cons f fs ih =>
    simp only [List.map_cons, List.nodup_cons] at hn
    simp only [List.foldl_cons]
    rcases List.mem_cons.1 hg with rfl | hmem
    · rw [lookup_link_of_not_mem _ _ _ hn.1]
      exact lookup_writeFile_same files g.path g.checksum
    · exact ih _ hn.2 hmem

theorem verify_after_link (fs : List FileEntry) (files : List (String × String))
    (hn : (fs.map (fun f => f.path)).Nodup) :
    fs.all (fun g =>
      (fs.foldl (fun acc f => writeFile acc f.path f.checksum) files).lookup g.path ==
        some g.checksum) = true := by
  rw [List.all_eq_true]
  intro g hg
  simp [lookup_link_of_mem fs files hn g hg]

theorem available_congr {index index2 : PackageIndex} (h : index.flatten = index2.flatten)
    (name : String) : available index name = available index2 name := by
  simp only [available, h]

theorem candidates_congr {index index2 : PackageIndex} (h : index.flatten = index2.flatten)
    (sel : List Package) (c : DependencyConstraint) :
    candidates index sel c = candidates index2 sel c := by
  simp only [candidates, available_congr h]

theorem solve_congr {index index2 : PackageIndex} (h : index.flatten = index2.flatten)
    (blocked : List String) (fuel : Nat) (todo : List Demand) (sel : List Package) :
    solve index blocked fuel todo sel = solve index2 blocked fuel todo sel := by
  induction fuel generalizing todo sel with
  | zero => rfl
  | succ n ih =>
    cases todo with
    | nil => rfl
    | cons d todo =>
      simp only [solve, ih, candidates_congr h, available_congr h]

theorem packageOf_congr {index index2 : PackageIndex} (h : index.flatten = index2.flatten)
    (r : InstalledRecord) : packageOf index r = packageOf index2 r := by
  simp only [packageOf, h]

theorem dependsOn_congr {index index2 : PackageIndex} (h : index.flatten = index2.flatten)
    (r : InstalledRecord) (name : String) : dependsOn index r name = dependsOn index2 r name := by
  simp only [dependsOn, packageOf_congr h]

theorem cascade_congr {index index2 : PackageIndex} (h : index.flatten = index2.flatten)
    (installed : InstalledState) (fuel : Nat) (set : List String) :
    cascade installed index fuel set = cascade installed index2 fuel set := by
  induction fuel generalizing set with
  | zero => rfl
  | succ n ih => simp only [cascade, ih, dependsOn_congr h]

/-- Resolve looks at the PackageIndex only through the concatenation of its
repositories in declaration order. -/
theorem Resolve_congr {index index2 : PackageIndex} (h : index.flatten = index2.flatten)
    (installed : InstalledState) (requests : List Request) :
    Resolve installed index requests = Resolve installed index2 requests := by
  have hp : packageOf index = packageOf index2 := funext (packageOf_congr h)
  simp only [Resolve, removalSet, rejectedRemoval, targetNodes, searchFuel, solve_congr h,
    cascade_congr h, dependsOn_congr h, hp, h]

theorem mem_insertByVersion (x p : Package) (l : List Package) :
    x ∈ insertByVersion p l ↔ x = p ∨ x ∈ l := by
  induction l with
  | nil => simp [insertByVersion]
  | cons q qs ih =>
    simp only [insertByVersion]
    split
    · simp only [List.mem_cons, ih]
      tauto
    · simp only [List.mem_cons]

theorem mem_foldl_insertByVersion (x : Package) (l acc : List Package)
    (h : x ∈ l.foldl (fun acc p => insertByVersion p acc) acc) : x ∈ acc ∨ x ∈ l := by
  induction l generalizing acc with
  | nil => exact Or.inl h
  | cons p ps ih =>
    simp only [List.foldl_cons] at h
    rcases ih _ h with h1 | h1
    · rcases (mem_insertByVersion x p acc).1 h1 with rfl | h2
      · exact Or.inr (List.mem_cons_self _ _)
      · exact Or.inl h2
    · exact Or.inr (List.mem_cons_of_mem _ h1)

/-- A candidate is a package of the index with the name of the constraint. -/
theorem mem_candidates (index : PackageIndex) (sel : List Package) (c : DependencyConstraint)
    (k : Package) (h : k ∈ candidates index sel c) :
    k ∈ index.flatten ∧ k.name = c.name := by
  simp only [candidates, available, List.mem_filter] at h
  rcases mem_foldl_insertByVersion k _ [] h.1 with h1 | h1
  · simp at h1
  · simp only [List.mem_filter, beq_iff_eq] at h1
    exact h1

theorem firstSuccess_error {ε α β : Type} (f : α → Except ε β) (l : List α) (e : ε)
    (h : firstSuccess f l = some (Except.error e)) : ∃ a ∈ l, f a = Except.error e := by
  cases l with
  | nil => simp [firstSuccess] at h
  | cons a as =>
    simp only [firstSuccess] at h
    split at h
    · simp at h
    · rename_i e1 he1
      refine ⟨a, List.mem_cons_self _ _, ?_⟩
      split at h
      · simp at h
      · simp only [Option.some.injEq, Except.error.injEq] at h
        rw [he1, h]

theorem sum_filter_mono {α : Type} (f : α → Nat) (P Q : α → Bool)
    (h : ∀ x, Q x = true → P x = true) (l : List α) :
    ((l.filter Q).map f).sum ≤ ((l.filter P).map f).sum := by
  induction l with
  | nil => simp
  | cons p ps ih =>
    simp only [List.filter_cons]
    by_cases hq : Q p = true
    · simp only [hq, h p hq, if_true, List.map_cons, List.sum_cons]
      omega
    · by_cases hp : P p = true
      · simp only [hq, hp, if_true, List.map_cons, List.sum_cons]
        simp only [Bool.false_eq_true, if_false]
        omega
      · simp only [hq, hp]
        exact ih

theorem sum_filter_drop {α : Type} (f : α → Nat) (P Q : α → Bool)
    (h : ∀ x, Q x = true → P x = true) (l : List α) (k : α) (hk : k ∈ l)
    (hP : P k = true) (hQ : Q k = false) :
    ((l.filter Q).map f).sum + f k ≤ ((l.filter P).map f).sum := by
  induction l with
  | nil => simp at hk
  | cons p ps ih =>
    have hle := sum_filter_mono f P Q h ps
    simp only [List.filter_cons]
    rcases List.mem_cons.1 hk with rfl | hmem
    · simp only [hP, hQ, if_true, List.map_cons, List.sum_cons]
      simp only [Bool.false_eq_true, if_false]
      omega
    · have h3 := ih hmem
      by_cases hq : Q p = true
      · simp only [hq, h p hq, if_true, List.map_cons, List.sum_cons]
        omega
      · by_cases hp : P p = true
        · simp only [hq, hp, if_true, List.map_cons, List.sum_cons]
          simp only [Bool.false_eq_true, if_false]
          omega
        · simp only [hq, hp]
          exact h3

/-- Selecting a package of the index for a name without candidate takes its
dependency constraints out of the pending weight. -/
theorem pendingWeight_select (index : PackageIndex) (sel : List Package) (k : Package)
    (hk : k ∈ index.flatten) (hsel : sel.any (fun q => q.name == k.name) = false) :
    pendingWeight index (sel ++ [k]) + k.deps.length ≤ pendingWeight index sel := by
  unfold pendingWeight
  apply sum_filter_drop (fun p => p.deps.length)
    (fun p => !sel.any (fun q => q.name == p.name))
    (fun p => !(sel ++ [k]).any (fun q => q.name == p.name)) _ _ k hk
  · simp [hsel]
  · simp
  · intro x hx
    simp only [List.any_append, Bool.not_eq_true', Bool.or_eq_false_iff] at hx
    simp [hx.1]

theorem pendingWeight_le (index : PackageIndex) (sel : List Package) :
    pendingWeight index sel ≤ (index.flatten.map (fun p => p.deps.length)).sum := by
  unfold pendingWeight
  have h := sum_filter_mono (fun p : Package => p.deps.length) (fun _ => true)
    (fun p => !sel.any (fun q => q.name == p.name)) (fun _ _ => rfl) index.flatten
  rw [List.filter_true] at h
  exact h

theorem find_none_any (sel : List Package) (name : String)
    (h : sel.find? (fun p => p.name == name) = none) (k : Package) (hk : k.name = name) :
    sel.any (fun q => q.name == k.name) = false := by
  rw [List.find?_eq_none] at h
  rw [List.any_eq_false]
  intro q hq
  rw [hk]
  exact h q hq

/-- The search bound is never the reason the solver stops: with fuel above the
length of the work-stack plus the pending weight, `solve` does not report
`searchLimit`. -/
theorem solve_ne_searchLimit (index : PackageIndex) (blocked : List String) (fuel : Nat)
    (todo : List Demand) (sel : List Package)
    (h : todo.length + pendingWeight index sel < fuel) :
    solve index blocked fuel todo sel ≠ Except.error ResolveError.searchLimit := by
  induction fuel generalizing todo sel with
  | zero => omega
  | succ n ih =>
    cases todo with
    | nil => simp [solve]
    | cons d todo =>
      simp only [List.length_cons] at h
      have hrest : solve index blocked n todo sel ≠ Except.error ResolveError.searchLimit :=
        ih todo sel (by omega)
      intro hc
      simp only [solve] at hc
      split at hc
      · split at hc
        · exact hrest hc
        · simp at hc
      · rename_i hfind
        split at hc
        · simp at hc
        · rename_i e hfs
          split at hc
          · exact hrest hc
          · simp only [Except.error.injEq] at hc
            subst hc
            obtain ⟨k, hk, hat⟩ := firstSuccess_error _ _ _ hfs
            split at hk
            · simp at hk
            · obtain ⟨hmem, hname⟩ := mem_candidates index sel d.constraint k hk
              split at hat
              · simp at hat
              · have hw := pendingWeight_select index sel k hmem
                  (find_none_any sel d.constraint.name hfind k hname)
                refine ih (todo ++ demandsOf d.chain k) (sel ++ [k]) ?_ hat
                simp only [List.length_append, demandsOf, List.length_map]
                omega
        · split at hc
          · exact hrest hc
          · simp at hc
/-- Resolve supplies its solver with enough fuel: it never reports
`searchLimit`, so every error it returns is one of the errors of §7. -/
theorem Resolve_ne_searchLimit (installed : InstalledState) (index : PackageIndex)
    (requests : List Request) :
    Resolve installed index requests ≠ Except.error ResolveError.searchLimit := by
  intro hc
  simp only [Resolve] at hc
  split at hc
  · simp at hc
  · split at hc
    · rename_i e hsolve
      simp only [Except.error.injEq] at hc
      subst hc
      refine solve_ne_searchLimit _ _ _ _ _ ?_ hsolve
      have := pendingWeight_le index
        (List.map (packageOf index) (List.filter (fun r =>
          !(removalSet installed index requests).contains r.name &&
            !(freedNames installed requests).contains r.name) installed))
      simp only [searchFuel]
      omega
    · split at hc <;> simp at hc

/-- C5: the install scenario of the core.  InstalledState is empty and the
PackageIndex holds exactly `A@1.0` (no dependencies) and `B@2.0` (depends on
`A>=1.0`), in either order and with any split into repositories, whatever
their manifests (each listing a path once) and sizes.  For the request
`Install(B)`, Resolve returns the graph `{A@1.0 install, B@2.0 install}`; Plan
puts every step of `A` before every step of `B`, and both have all four install
steps; and, with collaborators that deliver the two archives and a filesystem
that accepts the writes, Execute commits the whole plan and leaves
InstalledState = `{A@1.0, B@2.0}`. -/
theorem install_scenario (mA mB : List FileEntry) (sA sB : Nat) (index : PackageIndex)
    (files : List (String × String)) (svc : Services)
    (hidx : index.flatten = [scenarioA mA sA, scenarioB mB sB] ∨
      index.flatten = [scenarioB mB sB, scenarioA mA sA])
    (hnA : (mA.map (fun f => f.path)).Nodup) (hnB : (mB.map (fun f => f.path)).Nodup)
    (hfA : svc.fetch { name := "A", version := [1, 0] } = true)
    (hfB : svc.fetch { name := "B", version := [2, 0] } = true)
    (huA : svc.unpack { name := "A", version := [1, 0] } = some mA)
    (huB : svc.unpack { name := "B", version := [2, 0] } = some mB)
    (hw : ∀ f ∈ mA ++ mB, svc.canWrite f.path = true) :
    Resolve [] index [Request.install "B" none] =
      Except.ok { graph := scenarioGraph, orphans := [] } ∧
    Plan scenarioGraph = scenarioPlan ∧
    (∀ s ∈ Plan scenarioGraph, ∀ t ∈ Plan scenarioGraph,
      s.pkg.name = "A" → t.pkg.name = "B" →
        (Plan scenarioGraph).indexOf s < (Plan scenarioGraph).indexOf t) ∧
    (∀ k ∈ [StepKind.fetch, StepKind.unpack, StepKind.linkFiles, StepKind.recordInstall],
      ({ kind := k, pkg := { name := "A", version := [1, 0] } } : Step) ∈ Plan scenarioGraph ∧
      ({ kind := k, pkg := { name := "B", version := [2, 0] } } : Step) ∈ Plan scenarioGraph) ∧
    (Execute { index := index, graph := scenarioGraph, services := svc }
      (Plan scenarioGraph) { entries := [], compensations := [] }
      { files := files, fetched := [], staged := [], installed := [] }).1.installed =
      [{ name := "A", version := [1, 0], files := mA.map (fun f => (f.path, f.checksum)),
         timestamp := svc.now, explicit := false },
       { name := "B", version := [2, 0], files := mB.map (fun f => (f.path, f.checksum)),
         timestamp := svc.now, explicit := true }] ∧
    (Execute { index := index, graph := scenarioGraph, services := svc }
      (Plan scenarioGraph) { entries := [], compensations := [] }
      { files := files, fetched := [], staged := [], installed := [] }).2.2 =
      { committed := Plan scenarioGraph, failed := none, error := none } := by
  have hplan : Plan scenarioGraph = scenarioPlan := by decide
  have hwA : mA.all (fun f => svc.canWrite f.path) = true := by
    rw [List.all_eq_true]
    intro f hf
    simpa using hw f (by simp [hf])
  have hwB : mB.all (fun f => svc.canWrite f.path) = true := by
    rw [List.all_eq_true]
    intro f hf
    simpa using hw f (by simp [hf])
  refine ⟨?_, hplan, ?_, ?_, ?_, ?_⟩
  · rcases hidx with h | h
    · have h2 : index.flatten = [[scenarioA mA sA, scenarioB mB sB]].flatten := by
        rw [h]
        rfl
      rw [Resolve_congr h2]
      rfl
    · have h2 : index.flatten = [[scenarioB mB sB, scenarioA mA sA]].flatten := by
        rw [h]
        rfl
      rw [Resolve_congr h2]
      rfl
  · rw [hplan]
    decide
  · rw [hplan]
    decide
  · rw [hplan]
    rcases hidx with h | h <;>
    simp [Execute, committedEntries, scenarioPlan, runSteps, applyStep, hfA, hfB, huA, huB,
      Package.id, scenarioA, scenarioB, stagedFiles, hwA, hwB, verify_after_link, hnA, hnB,
      scenarioGraph, h]
  · rw [hplan]
    rcases hidx with h | h <;>
    simp [Execute, committedEntries, scenarioPlan, runSteps, applyStep, hfA, hfB, huA, huB,
      Package.id, scenarioA, scenarioB, stagedFiles, hwA, hwB, verify_after_link, hnA, hnB,
      scenarioGraph, setLast, journalEntry, h]

/-- C5, run on concrete data: one repository holding `A` and `B` with the
manifests `demoA` and `demoB`, an empty filesystem and collaborators that never
fail. -/
theorem install_scenario_witness :
    Resolve [] [[scenarioA demoA 10, scenarioB demoB 20]] [Request.install "B" none] =
      Except.ok { graph := scenarioGraph, orphans := [] } ∧
    Plan scenarioGraph = scenarioPlan ∧
    (Execute { index := [[scenarioA demoA 10, scenarioB demoB 20]], graph := scenarioGraph,
               services := servicesOk demoA demoB }
      (Plan scenarioGraph) { entries := [], compensations := [] }
      { files := [], fetched := [], staged := [], installed := [] }).1.installed =
      [{ name := "A", version := [1, 0], files := demoA.map (fun f => (f.path, f.checksum)),
         timestamp := (servicesOk demoA demoB).now, explicit := false },
       { name := "B", version := [2, 0], files := demoB.map (fun f => (f.path, f.checksum)),
         timestamp := (servicesOk demoA demoB).now, explicit := true }] :=
  have h := install_scenario demoA demoB 10 20 [[scenarioA demoA 10, scenarioB demoB 20]] []
    (servicesOk demoA demoB) (Or.inl rfl)
    (by decide) (by decide) rfl rfl rfl rfl (fun _ _ => rfl)
  ⟨h.1, h.2.1, h.2.2.2.2.1⟩

/-- The second scenario of §8 on the model: with `C@1.0` depending on `D>=2.0`
and only `D@1.0` available, `Install(C)` is unsatisfiable, naming the chain
`C@1.0`, the constraint `D>=2.0` and the available version `1.0`. -/
theorem unsatisfiable_scenario :
    Resolve []
      [[plainPackage "C" [1, 0]
          [{ name := "D", pred := VersionPred.range (some [2, 0]) none, optional := false }],
        plainPackage "D" [1, 0] []]]
      [Request.install "C" none] =
    Except.error (ResolveError.unsatisfiable [{ name := "C", version := [1, 0] }]
      { name := "D", pred := VersionPred.range (some [2, 0]) none, optional := false }
      [[1, 0]]) := by
  rfl

/-- The third scenario of §8 on the model: with `A@1.0` explicit and `B@1.0`
depending on `A`, `Remove(A)` is rejected because of `B`; with force-cascade
both are removed and the plan removes `B` before `A`. -/
theorem remove_scenario :
    let index : PackageIndex :=
      [[plainPackage "A" [1, 0] [],
        plainPackage "B" [1, 0] [{ name := "A", pred := VersionPred.any, optional := false }]]]
    let installed : InstalledState :=
      [{ name := "A", version := [1, 0], files := [], timestamp := 0, explicit := true },
       { name := "B", version := [1, 0], files := [], timestamp := 0, explicit := false }]
    Resolve installed index [Request.remove "A" false] =
      Except.error (ResolveError.removalRejected "A" ["B"]) ∧
    (Resolve installed index [Request.remove "A" true]).toOption.map (fun r => Plan r.graph) =
      some [{ kind := StepKind.removeFiles, pkg := { name := "B", version := [1, 0] } },
            { kind := StepKind.recordRemoval, pkg := { name := "B", version := [1, 0] } },
            { kind := StepKind.removeFiles, pkg := { name := "A", version := [1, 0] } },
            { kind := StepKind.recordRemoval, pkg := { name := "A", version := [1, 0] } }] := by
  constructor <;> rfl

end Core

end Pkgmgr
